import Mathlib

/-!
Shallow embedding of the core of the smoltcp-derived network stack:
the IGMP host state machine (`igmp_egress`, `process_igmp`,
`join_multicast_group`), the TCP/UDP ingress fallback paths
(`process_tcp`, `process_udp`), the socket registry (`SocketSet.add`,
`SocketSet.remove`), the spin mutex, and the loopback device.

Time follows the source: an `Instant` is a signed count of microseconds,
a `Duration` an unsigned count of microseconds.
-/

namespace Smoltcp

/-- Timestamps, in microseconds (source type `time::Instant`, i64 micros). -/
abbrev Instant := Int

/-- Durations, in microseconds (source type `time::Duration`, u64 micros). -/
abbrev Duration := Nat

/-- `Duration::from_millis` from the source: milliseconds to microseconds. -/
def duration_from_millis (ms : Nat) : Duration := ms * 1000

/-- IPv4 addresses as their 32-bit big-endian numeric value. -/
abbrev Ipv4Address := Nat

/-- `Ipv4Address::is_unspecified`: the all-zero address `0.0.0.0`. -/
def Ipv4Address.is_unspecified (a : Ipv4Address) : Bool := a = 0

/-- `Ipv4Address::MULTICAST_ALL_SYSTEMS` = 224.0.0.1. -/
def MULTICAST_ALL_SYSTEMS : Ipv4Address := 0xE0000001

/-- `IpAddress`: the address enum over the supported families. -/
inductive IpAddress where
  | ipv4 (a : Ipv4Address)
  | ipv6 (a : Nat)
deriving DecidableEq, Repr

/-- `IpAddress::is_unspecified`, family-wise all-zero test. -/
def IpAddress.is_unspecified : IpAddress → Bool
  | .ipv4 a => a.is_unspecified
  | .ipv6 a => a = 0

/-- `IgmpVersion` from the wire layer. -/
inductive IgmpVersion where
  | version1
  | version2
deriving DecidableEq, Repr

/-- `IgmpReportState`: the pending-response FSM of the IGMP host machine
(`iface/interface.rs`). -/
inductive IgmpReportState where
  | inactive
  | toGeneralQuery (version : IgmpVersion) (timeout : Instant)
      (interval : Duration) (next_index : Nat)
  | toSpecificQuery (version : IgmpVersion) (timeout : Instant)
      (group : Ipv4Address)
deriving DecidableEq, Repr

/-- `Ipv4Repr`: the decoded IPv4 header, with the fields the claims need.
`buffer_len` is the method of the same name (serialized header length). -/
structure Ipv4Repr where
  src_addr : Ipv4Address
  dst_addr : Ipv4Address
  buffer_len : Nat
deriving DecidableEq, Repr

/-- `Ipv6Repr`: the decoded IPv6 header, with the fields the claims need. -/
structure Ipv6Repr where
  src_addr : Nat
  dst_addr : Nat
  buffer_len : Nat
deriving DecidableEq, Repr

/-- `IpRepr`: decoded IP header of either family. -/
inductive IpRepr where
  | ipv4 (r : Ipv4Repr)
  | ipv6 (r : Ipv6Repr)
deriving DecidableEq, Repr

/-- `IpRepr::src_addr`. -/
def IpRepr.src_addr : IpRepr → IpAddress
  | .ipv4 r => .ipv4 r.src_addr
  | .ipv6 r => .ipv6 r.src_addr

/-- `IpRepr::dst_addr`. -/
def IpRepr.dst_addr : IpRepr → IpAddress
  | .ipv4 r => .ipv4 r.dst_addr
  | .ipv6 r => .ipv6 r.dst_addr

/-- `TcpControl`: the TCP control-flag summary from the wire layer. -/
inductive TcpControl where
  | noControl
  | psh
  | syn
  | fin
  | rst
deriving DecidableEq, Repr

/-- `TcpRepr`: decoded TCP header, with the fields the claims need. -/
structure TcpRepr where
  src_port : Nat
  dst_port : Nat
  control : TcpControl
  seq_number : Nat
deriving DecidableEq, Repr

/-- `Icmpv4DstUnreachable` reason codes (only the one the claims use,
plus a catch-all). -/
inductive Icmpv4DstUnreachable where
  | portUnreachable
  | otherReason
deriving DecidableEq, Repr

/-- `Icmpv4Repr`: decoded ICMPv4 message (only the variant the claims use).
`data` is the quoted slice of the offending packet, bytes as `Nat`. -/
inductive Icmpv4Repr where
  | dstUnreachable (reason : Icmpv4DstUnreachable) (header : Ipv4Repr)
      (data : List Nat)
deriving DecidableEq, Repr

/-- `Icmpv6DstUnreachable` reason codes (only the one `process_udp` uses,
plus a catch-all). -/
inductive Icmpv6DstUnreachable where
  | portUnreachable
  | otherReason
deriving DecidableEq, Repr

/-- `Icmpv6Repr`: decoded ICMPv6 message (only the variant `process_udp`
builds). -/
inductive Icmpv6Repr where
  | dstUnreachable (reason : Icmpv6DstUnreachable) (header : Ipv6Repr)
      (data : List Nat)
deriving DecidableEq, Repr

/-- Egress packets, tagged by the emitting path.  The stack's `Packet`
bundles an IP header with a typed payload; only the shapes the claims
mention are carried. -/
inductive Packet where
  | igmpReport (version : IgmpVersion) (group : Ipv4Address)
  | igmpLeave (group : Ipv4Address)
  | tcpPacket (ip : IpRepr) (tcp : TcpRepr)
  | icmpv4Packet (ip : Ipv4Repr) (icmp : Icmpv4Repr)
  | icmpv6Packet (ip : Ipv6Repr) (icmp : Icmpv6Repr)
deriving DecidableEq, Repr

/-- Modelled from the spec: `InterfaceInner::igmp_report_packet` is absent
from the sources at hand; per §4.G ("build report packet for `group`") it
builds the membership-report packet for `group`, so the model always
yields one. -/
def igmp_report_packet (version : IgmpVersion) (group : Ipv4Address) :
    Option Packet :=
  some (.igmpReport version group)

/-- Result of one `Interface::igmp_egress` call: the returned `bool`,
the `igmp_report_state` left behind, and the packets handed to TxTokens
via `dispatch_ip` during the call. -/
structure IgmpEgressResult where
  result : Bool
  state : IgmpReportState
  emitted : List Packet
deriving DecidableEq, Repr

/-- `Interface::igmp_egress` (`iface/interface/igmp.rs`).  The device and
the fragmenter pool are abstracted to their observable effect on this
call: `frag_avail` is whether `get_fragmenter_egress(queue_id)` returns a
guard, `tx_avail` whether `device.transmit(now, queue_id)` yields a
TxToken.  `groups` is the IPv4 multicast table in iteration order. -/
def igmp_egress (groups : List Ipv4Address) (frag_avail tx_avail : Bool)
    (now : Instant) (st : IgmpReportState) : IgmpEgressResult :=
  if !frag_avail then
    ⟨false, st, []⟩
  else
    match st with
    | .toSpecificQuery version timeout group =>
      if timeout ≤ now then
        match igmp_report_packet version group with
        | some pkt =>
          if tx_avail then
            ⟨true, .inactive, [pkt]⟩
          else
            ⟨false, st, []⟩
        | none => ⟨true, .inactive, []⟩
      else ⟨false, st, []⟩
    | .toGeneralQuery version timeout interval next_index =>
      if timeout ≤ now then
        match groups[next_index]? with
        | some addr =>
          match igmp_report_packet version addr with
          | some pkt =>
            if tx_avail then
              ⟨true,
               .toGeneralQuery version (max (timeout + (interval : Int)) now)
                 interval (next_index + 1),
               [pkt]⟩
            else
              ⟨false, st, []⟩
          | none =>
            ⟨true,
             .toGeneralQuery version (max (timeout + (interval : Int)) now)
               interval (next_index + 1),
             []⟩
        | none => ⟨false, .inactive, []⟩
      else ⟨false, st, []⟩
    | .inactive => ⟨false, st, []⟩

/-- `IgmpRepr`: decoded IGMP message from the wire layer. -/
inductive IgmpRepr where
  | membershipQuery (group_addr : Ipv4Address) (version : IgmpVersion)
      (max_resp_time : Duration)
  | membershipReport (group_addr : Ipv4Address) (version : IgmpVersion)
  | leaveGroup (group_addr : Ipv4Address)
deriving DecidableEq, Repr

/-- `InterfaceInner::process_igmp` (`iface/interface/igmp.rs`), entered
after `IgmpPacket::new_checked` and `IgmpRepr::parse` have succeeded
(the claims condition on a successful decode, so the embedding takes the
decoded `igmp_repr`).  Returns the new `igmp_report_state` and the
function's `Option<Packet>` result. -/
def process_igmp (groups : List Ipv4Address) (ipv4_repr : Ipv4Repr)
    (igmp_repr : IgmpRepr) (now : Instant) (st : IgmpReportState) :
    IgmpReportState × Option Packet :=
  match igmp_repr with
  | .membershipQuery group_addr version max_resp_time =>
    if group_addr.is_unspecified
        && (ipv4_repr.dst_addr = MULTICAST_ALL_SYSTEMS : Bool) then
      if groups.isEmpty then
        (st, none)
      else
        let interval : Duration :=
          match version with
          | .version1 => duration_from_millis 100
          | .version2 => max_resp_time / (groups.length + 1)
        (.toGeneralQuery version (now + (interval : Int)) interval 0, none)
    else
      if groups.contains group_addr
          && (ipv4_repr.dst_addr = group_addr : Bool) then
        (.toSpecificQuery version (now + ((max_resp_time / 4 : Nat) : Int))
           group_addr, none)
      else
        (st, none)
  | .membershipReport _ _ => (st, none)
  | .leaveGroup _ => (st, none)

/-- `MulticastError` (`iface/interface/igmp.rs`). -/
inductive MulticastError where
  | exhausted
  | groupTableFull
  | ipv6NotSupported
deriving DecidableEq, Repr

/-- The IPv4 multicast table: a capacity-bounded map from IPv4 address to
`()`, kept in iteration order. -/
structure MulticastTable where
  groups : List Ipv4Address
  capacity : Nat
deriving DecidableEq, Repr

/-- Modelled from the spec: `ManagedMap::insert` on the multicast table is
absent from the sources at hand; per §3 ("bounded mapping from IPv4
multicast address to membership metadata") and invariant 4 ("capacity-
bounded; at capacity, insertion fails ... without side effects") it
returns the previous value when the key is present, errors (`none` here)
when the table is full and the key is absent, and otherwise appends the
key. -/
def MulticastTable.insert (t : MulticastTable) (addr : Ipv4Address) :
    Option (Option Unit × MulticastTable) :=
  if t.groups.contains addr then
    some (some (), t)
  else if t.capacity ≤ t.groups.length then
    none
  else
    some (none, { t with groups := t.groups ++ [addr] })

/-- Result of one `Interface::join_multicast_group` call: the returned
`Result`, the multicast table left behind, and the packets handed to
TxTokens during the call. -/
structure JoinResult where
  result : Except MulticastError Bool
  table : MulticastTable
  emitted : List Packet
deriving Repr

/-- `Interface::join_multicast_group` (`iface/interface/igmp.rs`).
`tx_avail` abstracts whether `device.transmit(timestamp, 0)` yields a
TxToken. -/
def join_multicast_group (t : MulticastTable) (addr : IpAddress)
    (tx_avail : Bool) : JoinResult :=
  match addr with
  | .ipv4 a =>
    match t.insert a with
    | none => ⟨.error .groupTableFull, t, []⟩
    | some (prev, t') =>
      if prev.isSome then
        ⟨.ok false, t', []⟩
      else
        match igmp_report_packet .version2 a with
        | some pkt =>
          if tx_avail then
            ⟨.ok true, t', [pkt]⟩
          else
            ⟨.error .exhausted, t', []⟩
        | none => ⟨.ok false, t', []⟩
  | .ipv6 _ => ⟨.error .ipv6NotSupported, t, []⟩

/-- Modelled from the spec: `tcp::Socket::rst_reply` is absent from the
sources at hand; per §8 scenario 5 it builds a RST with swapped addresses
and an appropriate sequence echo.  Its exact contents do not matter to
the claims, which reference it by name. -/
def rst_reply (ip_repr : IpRepr) (tcp_repr : TcpRepr) : IpRepr × TcpRepr :=
  let ip' : IpRepr :=
    match ip_repr with
    | .ipv4 r => .ipv4 { r with src_addr := r.dst_addr, dst_addr := r.src_addr }
    | .ipv6 r => .ipv6 { r with src_addr := r.dst_addr, dst_addr := r.src_addr }
  (ip',
   { src_port := tcp_repr.dst_port,
     dst_port := tcp_repr.src_port,
     control := .rst,
     seq_number := tcp_repr.seq_number + 1 })

/-- One entry of `sockets.items()` as seen by `process_tcp`: whether
`socket.try_read()` succeeds, whether `Socket::downcast` to TCP succeeds,
whether `accepts` matches the envelope, and what `process` returns when
invoked. -/
structure TcpSocketModel where
  try_read_ok : Bool
  is_tcp : Bool
  accepts : Bool
  process_result : Option (IpRepr × TcpRepr)
deriving DecidableEq, Repr

/-- `InterfaceInner::process_tcp` (`iface/interface/tcp.rs`), entered
after `TcpPacket::new_checked` and `TcpRepr::parse` have succeeded.  The
loop takes the first item whose try-read succeeds, downcasts to TCP and
accepts; otherwise it falls through to the RST-or-nothing tail. -/
def process_tcp (sockets : List TcpSocketModel) (ip_repr : IpRepr)
    (tcp_repr : TcpRepr) : Option Packet :=
  match sockets.find? (fun s => s.try_read_ok && s.is_tcp && s.accepts) with
  | some s => s.process_result.map (fun p => .tcpPacket p.1 p.2)
  | none =>
    if tcp_repr.control = TcpControl.rst
        || ip_repr.dst_addr.is_unspecified
        || ip_repr.src_addr.is_unspecified then
      none
    else
      some (.tcpPacket (rst_reply ip_repr tcp_repr).1
        (rst_reply ip_repr tcp_repr).2)

/-- `IPV4_MIN_MTU`: the minimum MTU IPv4 requires every link to support. -/
def IPV4_MIN_MTU : Nat := 576

/-- `IPV6_MIN_MTU`: the minimum MTU IPv6 requires every link to support. -/
def IPV6_MIN_MTU : Nat := 1280

/-- Modelled from the spec: `icmp_reply_payload_len` is absent from the
sources at hand; per §4.H ("sized to the ICMP min-MTU truncation rule")
it bounds the quoted payload so that the reply (its own IP header, the
8-byte ICMP header, and the quote) fits the minimum MTU. -/
def icmp_reply_payload_len (len mtu header_len : Nat) : Nat :=
  min len (mtu - header_len * 2 - 8)

/-- Modelled from the spec: `InterfaceInner::icmpv4_reply` is absent from
the sources at hand; per §4.H ("reply ICMP port-unreachable") it wraps
the ICMPv4 representation into a reply packet. -/
def icmpv4_reply (ipv4_repr : Ipv4Repr) (icmp_repr : Icmpv4Repr) :
    Option Packet :=
  some (.icmpv4Packet ipv4_repr icmp_repr)

/-- Modelled from the spec: `InterfaceInner::icmpv6_reply` is absent from
the sources at hand; like its IPv4 counterpart it wraps the ICMPv6
representation into a reply packet. -/
def icmpv6_reply (ipv6_repr : Ipv6Repr) (icmp_repr : Icmpv6Repr) :
    Option Packet :=
  some (.icmpv6Packet ipv6_repr icmp_repr)

/-- One entry of `sockets.items()` as seen by the UDP loop of
`process_udp`. -/
structure UdpSocketModel where
  try_read_ok : Bool
  is_udp : Bool
  accepts : Bool
deriving DecidableEq, Repr

/-- One entry of `sockets.items()` as seen by the DNS loop of
`process_udp`. -/
structure DnsSocketModel where
  try_read_ok : Bool
  is_dns : Bool
  accepts : Bool
deriving DecidableEq, Repr

/-- `InterfaceInner::process_udp` (`iface/interface/udp.rs`), entered
after `UdpPacket::new_checked` and `UdpRepr::parse` have succeeded.  A
matched UDP or DNS socket consumes the datagram and the function returns
`none`; otherwise the ICMP port-unreachable tail runs.  `ip_payload` is
the raw IP payload, bytes as `Nat`. -/
def process_udp (udp_sockets : List UdpSocketModel)
    (dns_sockets : List DnsSocketModel) (handled_by_raw_socket : Bool)
    (ip_repr : IpRepr) (ip_payload : List Nat) : Option Packet :=
  match udp_sockets.find?
      (fun s => s.try_read_ok && s.is_udp && s.accepts) with
  | some _ => none
  | none =>
    match dns_sockets.find?
        (fun s => s.try_read_ok && s.is_dns && s.accepts) with
    | some _ => none
    | none =>
      match ip_repr with
      | .ipv4 ipv4_repr =>
        if handled_by_raw_socket then
          none
        else
          let payload_len := icmp_reply_payload_len ip_payload.length
            IPV4_MIN_MTU ipv4_repr.buffer_len
          icmpv4_reply ipv4_repr
            (.dstUnreachable .portUnreachable ipv4_repr
              (ip_payload.take payload_len))
      | .ipv6 ipv6_repr =>
        if handled_by_raw_socket then
          none
        else
          let payload_len := icmp_reply_payload_len ip_payload.length
            IPV6_MIN_MTU ipv6_repr.buffer_len
          icmpv6_reply ipv6_repr
            (.dstUnreachable .portUnreachable ipv6_repr
              (ip_payload.take payload_len))

/-- `Item` of a socket set (`iface/socket_set.rs`): the meta (of which
the claims use only `meta.handle`, a slot index), the atomic `queue_id`,
and the stored socket.  `σ` is the socket enum `Socket<'a>`, kept
abstract: sockets enter `add` already upcast. -/
structure Item (σ : Type) where
  meta_handle : Nat
  queue_id : Nat
  socket : σ
deriving DecidableEq, Repr

/-- `SocketSet` (`iface/socket_set.rs`): the slots (`SocketStorage.inner`
as `Option (Item σ)`), the round-robin counter, and whether the
`ManagedSlice` storage is owned/growable (`true`) or borrowed/fixed
(`false`). -/
structure SocketSet (σ : Type) where
  sockets : List (Option (Item σ))
  counter : Nat
  growable : Bool
deriving Repr

/-- The linear scan of `SocketSet::add`: index of the first slot whose
`inner.is_none()`. -/
def findFirstEmpty {σ : Type} : List (Option (Item σ)) → Option Nat
  | [] => none
  | none :: _ => some 0
  | some _ :: rest => (findFirstEmpty rest).map (· + 1)

/-- `SocketSet::add` (`iface/socket_set.rs`), with `QUEUE_COUNT` passed
as `Q` (it is a build-time constant in `config.rs`, absent from the
sources at hand).  `none` models the panic on a full borrowed storage;
otherwise the new set and the index wrapped by the returned
`SocketHandle` are produced.  The counter `fetch_add` happens at the
`put`, so only on success. -/
def SocketSet.add {σ : Type} (Q : Nat) (set : SocketSet σ) (socket : σ) :
    Option (SocketSet σ × Nat) :=
  match findFirstEmpty set.sockets with
  | some index =>
    some ({ set with
              sockets := set.sockets.set index
                (some ⟨index, set.counter % Q, socket⟩),
              counter := set.counter + 1 },
          index)
  | none =>
    if set.growable then
      let index := set.sockets.length
      some ({ set with
                sockets := set.sockets ++ [some ⟨index, set.counter % Q, socket⟩],
                counter := set.counter + 1 },
            index)
    else
      none

/-- `SocketSet::remove` (`iface/socket_set.rs`): `inner.take()` on slot
`handle.0`.  `none` models the panic on an out-of-range or empty slot;
otherwise the stored socket and the set with the slot vacated are
produced. -/
def SocketSet.remove {σ : Type} (set : SocketSet σ) (handle : Nat) :
    Option (σ × SocketSet σ) :=
  match set.sockets[handle]? with
  | some (some item) =>
    some (item.socket, { set with sockets := set.sockets.set handle none })
  | _ => none

/-- `Mutex::try_lock` (`mutex.rs`) acting on the lock flag: the body is
`if !self.lock.swap(true, Acquire)`, so the call succeeds iff the flag
was `false`, and the flag is `true` afterwards in either case.  Returns
(`Ok`?, new flag). -/
def mutex_try_lock (flag : Bool) : Bool × Bool :=
  (!flag, true)

/-- `Drop for MutexGuard` (`mutex.rs`): `lock.swap(false, Release)`. -/
def mutex_guard_drop (_flag : Bool) : Bool :=
  false

/-- `Mutex::lock` (`mutex.rs`): loop on `try_lock` until it succeeds.
The loop is given explicit fuel; `none` means the call has not returned
within `fuel` iterations.  Returns (`Ok`?, new flag) when it returns. -/
def mutex_lock : Nat → Bool → Option (Bool × Bool)
  | 0, _ => none
  | fuel + 1, flag =>
    let r := mutex_try_lock flag
    if r.1 then some (true, r.2) else mutex_lock fuel r.2

/-- `Loopback` (`phy/loopback.rs`): `QUEUE_COUNT` FIFO queues of byte
buffers (bytes as `Nat`). -/
structure Loopback where
  queue : List (List (List Nat))
deriving DecidableEq, Repr

/-- `Loopback::transmit` (`phy/loopback.rs`): unconditionally hands out a
TxToken holding the lock of queue `queue_id` — the token is modelled by
the queue index it locks.  `none` models the index panic on an
out-of-range `queue_id`. -/
def Loopback.transmit (dev : Loopback) (queue_id : Nat) : Option Nat :=
  if queue_id < dev.queue.length then some queue_id else none

/-- `TxToken::consume` for `Loopback` (`phy/loopback.rs`): allocate a
zeroed buffer of length `len`, let `f` mutate it (`f` returns the result
value and the mutated buffer), push the buffer onto the token's queue,
and return `f`'s result together with the device left behind. -/
def Loopback.tx_consume {α : Type} (dev : Loopback) (queue_id len : Nat)
    (f : List Nat → α × List Nat) : α × Loopback :=
  let buffer := List.replicate len 0
  let r := f buffer
  (r.1, ⟨dev.queue.set queue_id (dev.queue.getD queue_id [] ++ [r.2])⟩)

/-- One step of later `SocketSet::add` activity: `b` results from `a` by
a single successful `add`. -/
def AddStep {σ : Type} (Q : Nat) (a b : SocketSet σ) : Prop :=
  ∃ socket set' index, a.add Q socket = some (set', index) ∧ b = set'

lemma mutex_lock_ok : ∀ (fuel : Nat) (flag : Bool) (r : Bool × Bool),
    mutex_lock fuel flag = some r → r.1 = true := by
  intro fuel
  induction fuel with
  | zero => intro flag r h; exact absurd h (by simp [mutex_lock])
  | succ n ih =>
    intro flag r h
    cases flag with
    | false =>
      simp [mutex_lock, mutex_try_lock] at h
      simp [← h]
    | true =>
      simp [mutex_lock, mutex_try_lock] at h
      exact ih true r h

/-- C9: for the spin `Mutex`, `try_lock` succeeds exactly when the lock
flag was `false`, in which case the flag is `true` afterwards; a failing
`try_lock` leaves the flag (already `true`) unchanged; dropping a
`MutexGuard` resets the flag to `false`; and `lock`, whenever it
returns, returns `Ok`. -/
theorem mutex_spec (flag : Bool) :
    ((mutex_try_lock flag).1 = true ↔ flag = false) ∧
    ((mutex_try_lock flag).1 = true → (mutex_try_lock flag).2 = true) ∧
    ((mutex_try_lock flag).1 = false → (mutex_try_lock flag).2 = flag) ∧
    mutex_guard_drop flag = false ∧
    (∀ fuel r, mutex_lock fuel flag = some r → r.1 = true) := by
  refine ⟨?_, ?_, ?_, rfl, ?_⟩
  · cases flag <;> simp [mutex_try_lock]
  · cases flag <;> simp [mutex_try_lock]
  · cases flag <;> simp [mutex_try_lock]
  · intro fuel r h
    exact mutex_lock_ok fuel flag r h

/-- Witness for C9 at `flag = false`. -/
theorem mutex_spec_witness :
    ((mutex_try_lock false).1 = true ↔ false = false) ∧
    ((mutex_try_lock false).1 = true → (mutex_try_lock false).2 = true) ∧
    ((mutex_try_lock false).1 = false → (mutex_try_lock false).2 = false) ∧
    mutex_guard_drop false = false ∧
    (∀ fuel r, mutex_lock fuel false = some r → r.1 = true) :=
  mutex_spec false

/-- C10: for every in-range `queue_id`, `Loopback::transmit` returns a
token (the loopback never reports a full queue), and `TxToken::consume`
with a length-preserving mutation `f` appends exactly one buffer — the
zero-initialized buffer of length `len` as mutated by `f` — to that
queue, leaves every other queue unchanged, and returns `f`'s result. -/
theorem loopback_transmit_consume {α : Type} (dev : Loopback)
    (queue_id len : Nat) (f : List Nat → α × List Nat)
    (hq : queue_id < dev.queue.length)
    (hf : ∀ b, (f b).2.length = b.length) :
    dev.transmit queue_id = some queue_id ∧
    (dev.tx_consume queue_id len f).1 = (f (List.replicate len 0)).1 ∧
    (dev.tx_consume queue_id len f).2.queue[queue_id]? =
      some (dev.queue.getD queue_id [] ++ [(f (List.replicate len 0)).2]) ∧
    (f (List.replicate len 0)).2.length = len ∧
    ∀ j, j ≠ queue_id →
      (dev.tx_consume queue_id len f).2.queue[j]? = dev.queue[j]? := by
  refine ⟨by simp [Loopback.transmit, hq], rfl, ?_, ?_, ?_⟩
  · simp only [Loopback.tx_consume]
    exact List.getElem?_set_eq_of_lt _ hq
  · rw [hf]
    exact List.length_replicate len 0
  · intro j hj
    simp only [Loopback.tx_consume]
    exact List.getElem?_set_ne fun h => hj h.symm

/-- Witness for C10 on a one-queue device with an identity mutation. -/
theorem loopback_transmit_consume_witness :
    (Loopback.transmit ⟨[[]]⟩ 0 = some 0) ∧
    ((Loopback.tx_consume ⟨[[]]⟩ 0 2 fun b => (7, b)).1 = 7) ∧
    ((Loopback.tx_consume ⟨[[]]⟩ 0 2 fun b => (7, b)).2.queue[0]? =
      some [[0, 0]]) := by
  have h := loopback_transmit_consume (α := Nat) ⟨[[]]⟩ 0 2
    (fun b => (7, b)) (by simp) (fun b => rfl)
  exact ⟨h.1, h.2.1, by simpa using h.2.2.1⟩

/-- C3: when no socket accepts a successfully decoded TCP segment,
`process_tcp` returns `none` if the segment is itself a RST or either
address is unspecified, and otherwise returns the RST reply built by
`tcp::Socket::rst_reply`. -/
theorem process_tcp_no_match (sockets : List TcpSocketModel)
    (ip_repr : IpRepr) (tcp_repr : TcpRepr)
    (hno : ∀ s ∈ sockets, s.accepts = false) :
    process_tcp sockets ip_repr tcp_repr =
      if tcp_repr.control = TcpControl.rst
          || ip_repr.dst_addr.is_unspecified
          || ip_repr.src_addr.is_unspecified then
        none
      else
        some (.tcpPacket (rst_reply ip_repr tcp_repr).1
          (rst_reply ip_repr tcp_repr).2) := by
  have hfind : sockets.find?
      (fun s => s.try_read_ok && s.is_tcp && s.accepts) = none := by
    refine List.find?_eq_none.mpr fun s hs => ?_
    simp [hno s hs]
  simp only [process_tcp, hfind]

/-- Witness for C3: an unmatched SYN yields the RST reply, by the
theorem applied to an empty socket set. -/
theorem process_tcp_no_match_witness :
    process_tcp [] (.ipv4 ⟨1, 2, 20⟩) ⟨10, 20, .syn, 5⟩ =
      some (.tcpPacket (.ipv4 ⟨2, 1, 20⟩) ⟨20, 10, .rst, 6⟩) := by
  have h := process_tcp_no_match [] (.ipv4 ⟨1, 2, 20⟩) ⟨10, 20, .syn, 5⟩
    (by intro s hs; simp at hs)
  simpa [rst_reply, IpRepr.dst_addr, IpRepr.src_addr,
    IpAddress.is_unspecified, Ipv4Address.is_unspecified] using h

/-- C4: when no UDP and no DNS socket accepts a successfully decoded UDP
datagram, `process_udp` returns `none` if a raw socket already handled
the packet, and on an unhandled IPv4 packet returns the ICMPv4
port-unreachable reply quoting the original payload truncated to
`icmp_reply_payload_len(len, IPV4_MIN_MTU, header_len)`. -/
theorem process_udp_no_match (udp_sockets : List UdpSocketModel)
    (dns_sockets : List DnsSocketModel) (handled_by_raw_socket : Bool)
    (ip_repr : IpRepr) (ip_payload : List Nat)
    (hu : ∀ s ∈ udp_sockets, s.accepts = false)
    (hd : ∀ s ∈ dns_sockets, s.accepts = false) :
    (handled_by_raw_socket = true →
      process_udp udp_sockets dns_sockets handled_by_raw_socket ip_repr
        ip_payload = none) ∧
    (∀ ipv4_repr, handled_by_raw_socket = false → ip_repr = .ipv4 ipv4_repr →
      process_udp udp_sockets dns_sockets handled_by_raw_socket ip_repr
          ip_payload =
        some (.icmpv4Packet ipv4_repr
          (.dstUnreachable .portUnreachable ipv4_repr
            (ip_payload.take (icmp_reply_payload_len ip_payload.length
              IPV4_MIN_MTU ipv4_repr.buffer_len))))) := by
  have hufind : udp_sockets.find?
      (fun s => s.try_read_ok && s.is_udp && s.accepts) = none := by
    refine List.find?_eq_none.mpr fun s hs => ?_
    simp [hu s hs]
  have hdfind : dns_sockets.find?
      (fun s => s.try_read_ok && s.is_dns && s.accepts) = none := by
    refine List.find?_eq_none.mpr fun s hs => ?_
    simp [hd s hs]
  constructor
  · intro hraw
    cases ip_repr <;> simp [process_udp, hufind, hdfind, hraw]
  · intro ipv4_repr hraw hip
    subst hip
    simp [process_udp, hufind, hdfind, hraw, icmpv4_reply]

/-- Witness for C4: an unmatched IPv4 datagram with no raw-socket
handling yields the port-unreachable reply, by the theorem applied to
empty socket sets. -/
theorem process_udp_no_match_witness :
    process_udp [] [] false (.ipv4 ⟨1, 2, 20⟩) [9, 8, 7] =
      some (.icmpv4Packet ⟨1, 2, 20⟩
        (.dstUnreachable .portUnreachable ⟨1, 2, 20⟩ [9, 8, 7])) := by
  have h := (process_udp_no_match [] [] false (.ipv4 ⟨1, 2, 20⟩) [9, 8, 7]
    (by intro s hs; simp at hs) (by intro s hs; simp at hs)).2
    ⟨1, 2, 20⟩ rfl rfl
  simpa [icmp_reply_payload_len, IPV4_MIN_MTU] using h

/-- C5: a well-formed general IGMP membership query (unspecified group
address, destination 224.0.0.1) sets `igmp_report_state` to
`ToGeneralQuery` with `timeout = now + interval`, `next_index = 0` and
the per-version interval — `max_resp_time / (groups + 1)` for v2,
100 ms for v1 — when the multicast table is non-empty, leaves the state
unchanged when it is empty, and returns `None` either way. -/
theorem process_igmp_general_query (groups : List Ipv4Address)
    (ipv4_repr : Ipv4Repr) (group_addr : Ipv4Address)
    (version : IgmpVersion) (max_resp_time : Duration) (now : Instant)
    (st : IgmpReportState)
    (hga : group_addr.is_unspecified = true)
    (hdst : ipv4_repr.dst_addr = MULTICAST_ALL_SYSTEMS) :
    let interval : Duration :=
      match version with
      | .version1 => duration_from_millis 100
      | .version2 => max_resp_time / (groups.length + 1)
    (groups ≠ [] →
      process_igmp groups ipv4_repr
          (.membershipQuery group_addr version max_resp_time) now st =
        (.toGeneralQuery version (now + (interval : Int)) interval 0,
         none)) ∧
    (groups = [] →
      process_igmp groups ipv4_repr
          (.membershipQuery group_addr version max_resp_time) now st =
        (st, none)) := by
  intro interval
  constructor
  · intro hne
    simp [process_igmp, hga, hdst, List.isEmpty_iff, hne, interval]
  · intro he
    subst he
    simp [process_igmp, hga, hdst]

/-- Witness for C5: a v2 general query with two joined groups and
`max_resp_time` 9 ms spreads reports at 3 ms intervals. -/
theorem process_igmp_general_query_witness :
    process_igmp [100, 200] ⟨1, 0xE0000001, 20⟩
        (.membershipQuery 0 .version2 9000) 0 .inactive =
      (.toGeneralQuery .version2 3000 3000 0, none) := by
  have h := (process_igmp_general_query [100, 200] ⟨1, 0xE0000001, 20⟩ 0
    .version2 9000 0 .inactive (by decide) rfl).1 (by decide)
  simpa using h

/-- C6: `join_multicast_group` on an IPv4 address when the table is at
capacity and the address is not yet joined returns
`Err(GroupTableFull)`, leaves the table unchanged, and transmits
nothing. -/
theorem join_multicast_group_full (t : MulticastTable) (a : Ipv4Address)
    (tx_avail : Bool)
    (hfull : t.groups.length = t.capacity)
    (hmem : t.groups.contains a = false) :
    join_multicast_group t (.ipv4 a) tx_avail =
      ⟨.error .groupTableFull, t, []⟩ := by
  have hnotmem : a ∉ t.groups := by simpa using hmem
  simp [join_multicast_group, MulticastTable.insert, hnotmem, hfull.symm.le]

/-- Witness for C6 on a capacity-1 table already holding one group. -/
theorem join_multicast_group_full_witness :
    join_multicast_group ⟨[5], 1⟩ (.ipv4 7) true =
      ⟨.error .groupTableFull, ⟨[5], 1⟩, []⟩ :=
  join_multicast_group_full ⟨[5], 1⟩ 7 true rfl (by decide)

/-- C1: `igmp_egress` moves `igmp_report_state` from a non-`Inactive`
state to `Inactive` only when it emitted a report through a TxToken, or
when the prior state was `ToGeneralQuery` with `next_index` at or past
the size of the multicast table; in particular an elapsed
`ToSpecificQuery` never becomes `Inactive` without an emission. -/
theorem igmp_egress_inactive_only_after_emit (groups : List Ipv4Address)
    (frag_avail tx_avail : Bool) (now : Instant) (st : IgmpReportState)
    (hne : st ≠ .inactive)
    (hst : (igmp_egress groups frag_avail tx_avail now st).state =
      .inactive) :
    (igmp_egress groups frag_avail tx_avail now st).emitted ≠ [] ∨
    ∃ version timeout interval next_index,
      st = .toGeneralQuery version timeout interval next_index ∧
      groups.length ≤ next_index := by
  cases frag_avail with
  | false =>
    simp [igmp_egress] at hst
    exact absurd hst hne
  | true =>
    rcases st with _ | ⟨version, timeout, interval, next_index⟩ |
      ⟨version, timeout, group⟩
    · exact absurd rfl hne
    · by_cases ht : timeout ≤ now
      · rcases hg : groups[next_index]? with _ | addr
        · exact Or.inr ⟨version, timeout, interval, next_index, rfl,
            List.getElem?_eq_none_iff.mp hg⟩
        · cases tx_avail with
          | false =>
            simp [igmp_egress, ht, hg, igmp_report_packet] at hst
          | true =>
            simp [igmp_egress, ht, hg, igmp_report_packet] at hst
      · simp only [igmp_egress, Bool.not_true, Bool.false_eq_true,
          if_false, if_neg ht] at hst
        exact absurd hst hne
    · by_cases ht : timeout ≤ now
      · cases tx_avail with
        | false =>
          simp only [igmp_egress, Bool.not_true, Bool.false_eq_true,
            if_false, if_pos ht, igmp_report_packet, Bool.false_eq_true] at hst
          exact absurd hst hne
        | true =>
          refine Or.inl ?_
          simp [igmp_egress, ht, igmp_report_packet]
      · simp only [igmp_egress, Bool.not_true, Bool.false_eq_true,
          if_false, if_neg ht] at hst
        exact absurd hst hne

/-- Witness for C1: an elapsed `ToSpecificQuery` with a TxToken
available goes to `Inactive` with a report emitted. -/
theorem igmp_egress_inactive_only_after_emit_witness :
    (igmp_egress [5] true true 10 (.toSpecificQuery .version2 3 5)).emitted
        ≠ [] ∨
    ∃ version timeout interval next_index,
      IgmpReportState.toSpecificQuery .version2 3 5 =
        .toGeneralQuery version timeout interval next_index ∧
      ([5] : List Ipv4Address).length ≤ next_index :=
  igmp_egress_inactive_only_after_emit [5] true true 10
    (.toSpecificQuery .version2 3 5) (by decide) (by decide)

/-- C2: an elapsed `ToGeneralQuery` with a fragmenter guard available
emits a report for the group at `next_index` when one exists and a
TxToken is granted, advancing the timeout by `interval` (clamped up to
`now`) and `next_index` by one and returning `true`; and goes to
`Inactive` returning `false` when no group exists at `next_index`. -/
theorem igmp_egress_general_query (groups : List Ipv4Address)
    (tx_avail : Bool) (now : Instant) (version : IgmpVersion)
    (timeout : Instant) (interval : Duration) (next_index : Nat)
    (ht : timeout ≤ now) :
    (∀ addr, groups[next_index]? = some addr → tx_avail = true →
      igmp_egress groups true tx_avail now
          (.toGeneralQuery version timeout interval next_index) =
        ⟨true,
         .toGeneralQuery version (max (timeout + (interval : Int)) now)
           interval (next_index + 1),
         [.igmpReport version addr]⟩) ∧
    (groups[next_index]? = none →
      igmp_egress groups true tx_avail now
          (.toGeneralQuery version timeout interval next_index) =
        ⟨false, .inactive, []⟩) := by
  constructor
  · intro addr hg htx
    subst htx
    simp [igmp_egress, ht, hg, igmp_report_packet]
  · intro hg
    simp [igmp_egress, ht, hg]

/-- Witness for C2: one joined group, elapsed timeout, TxToken granted —
the report goes out and the state advances past the end of the table. -/
theorem igmp_egress_general_query_witness :
    igmp_egress [9] true true 5 (.toGeneralQuery .version2 0 10 0) =
      ⟨true, .toGeneralQuery .version2 10 10 1,
       [.igmpReport .version2 9]⟩ := by
  have h := (igmp_egress_general_query [9] true 5 .version2 0 10 0
    (by decide)).1 9 (by decide) rfl
  simpa using h

lemma findFirstEmpty_none_iff {σ : Type} (l : List (Option (Item σ))) :
    findFirstEmpty l = none ↔ ∀ s ∈ l, s ≠ none := by
  induction l with
  | nil => simp [findFirstEmpty]
  | cons s rest ih =>
    cases s with
    | none => simp [findFirstEmpty]
    | some item =>
      simp only [findFirstEmpty, Option.map_eq_none', List.mem_cons]
      constructor
      · rintro h x (rfl | hx)
        · simp
        · exact (ih.mp h) x hx
      · intro h
        exact ih.mpr fun x hx => h x (Or.inr hx)

lemma findFirstEmpty_some {σ : Type} :
    ∀ {l : List (Option (Item σ))} {i : Nat}, findFirstEmpty l = some i →
      l[i]? = some none ∧ ∀ j < i, l[j]? ≠ some none := by
  intro l
  induction l with
  | nil => intro i h; exact absurd h (by simp [findFirstEmpty])
  | cons s rest ih =>
    intro i h
    cases s with
    | none =>
      simp only [findFirstEmpty, Option.some.injEq] at h
      subst h
      exact ⟨by simp, by intro j hj; omega⟩
    | some item =>
      simp only [findFirstEmpty, Option.map_eq_some'] at h
      obtain ⟨i', hi', rfl⟩ := h
      obtain ⟨hget, hlow⟩ := ih hi'
      refine ⟨by simpa using hget, ?_⟩
      intro j hj
      cases j with
      | zero => simp
      | succ k =>
        rw [List.getElem?_cons_succ]
        exact hlow k (by omega)

lemma SocketSet.add_slot {σ : Type} {Q : Nat} {set set' : SocketSet σ}
    {socket : σ} {index : Nat}
    (h : set.add Q socket = some (set', index)) :
    set'.sockets[index]? =
      some (some ⟨index, set.counter % Q, socket⟩) := by
  unfold SocketSet.add at h
  rcases hfe : findFirstEmpty set.sockets with _ | i <;> rw [hfe] at h
  · cases hg : set.growable with
    | false => rw [hg] at h; simp at h
    | true =>
      rw [hg] at h
      simp only [if_true, Option.some.injEq, Prod.mk.injEq] at h
      obtain ⟨h1, h2⟩ := h
      subst h2
      rw [← h1]
      exact List.getElem?_concat_length _ _
  · simp only [Option.some.injEq, Prod.mk.injEq] at h
    obtain ⟨h1, h2⟩ := h
    subst h2
    rw [← h1]
    have hlt : i < set.sockets.length :=
      (List.getElem?_eq_some.mp (findFirstEmpty_some hfe).1).1
    exact List.getElem?_set_eq_of_lt _ hlt

lemma AddStep.preserves {σ : Type} {Q : Nat} {a b : SocketSet σ}
    {h : Nat} {item : Item σ}
    (hslot : a.sockets[h]? = some (some item)) (hstep : AddStep Q a b) :
    b.sockets[h]? = some (some item) := by
  obtain ⟨socket, set', index, hadd, rfl⟩ := hstep
  unfold SocketSet.add at hadd
  rcases hfe : findFirstEmpty a.sockets with _ | i
  · rw [hfe] at hadd
    cases hg : a.growable with
    | false => rw [hg] at hadd; simp at hadd
    | true =>
      rw [hg] at hadd
      simp only [if_true, Option.some.injEq, Prod.mk.injEq] at hadd
      rw [← hadd.1]
      have hlt : h < a.sockets.length :=
        (List.getElem?_eq_some.mp hslot).1
      rw [List.getElem?_append_left hlt]
      exact hslot
  · rw [hfe] at hadd
    simp only [Option.some.injEq, Prod.mk.injEq] at hadd
    have hne : i ≠ h := by
      intro hih
      subst hih
      rw [(findFirstEmpty_some hfe).1] at hslot
      exact absurd (Option.some.inj hslot) (by simp)
    rw [← hadd.1]
    rw [List.getElem?_set_ne hne]
    exact hslot

lemma reach_preserves {σ : Type} {Q : Nat} {a b : SocketSet σ}
    {h : Nat} {item : Item σ}
    (hslot : a.sockets[h]? = some (some item))
    (hreach : Relation.ReflTransGen (AddStep Q) a b) :
    b.sockets[h]? = some (some item) := by
  induction hreach with
  | refl => exact hslot
  | tail _ hstep ih => exact AddStep.preserves ih hstep

/-- C7: `SocketSet::add` stores the socket in the lowest-index empty
slot (appending only on growable storage with no empty slot), returns
that index as the handle with `meta.handle` equal to it, assigns
`queue_id` as the pre-increment round-robin counter modulo
`QUEUE_COUNT` — hence in range — and panics exactly on a full borrowed
storage. -/
theorem socketSet_add_spec {σ : Type} (Q : Nat) (set : SocketSet σ)
    (socket : σ) (hQ : 0 < Q) :
    (set.add Q socket = none ↔
      set.growable = false ∧ ∀ s ∈ set.sockets, s ≠ none) ∧
    ∀ set' index, set.add Q socket = some (set', index) →
      set'.sockets[index]? =
        some (some ⟨index, set.counter % Q, socket⟩) ∧
      set.counter % Q < Q ∧
      set'.counter = set.counter + 1 ∧
      (∀ j < index, set.sockets[j]? ≠ some none) ∧
      (set.sockets[index]? = some none ∨
        (index = set.sockets.length ∧ set.growable = true)) := by
  constructor
  · rw [← findFirstEmpty_none_iff]
    unfold SocketSet.add
    rcases hfe : findFirstEmpty set.sockets with _ | i
    · cases hg : set.growable <;> simp [hg]
    · simp
  · intro set' index hadd
    refine ⟨SocketSet.add_slot hadd, Nat.mod_lt _ hQ, ?_, ?_, ?_⟩
    · unfold SocketSet.add at hadd
      rcases hfe : findFirstEmpty set.sockets with _ | i <;> rw [hfe] at hadd
      · cases hg : set.growable with
        | false => rw [hg] at hadd; simp at hadd
        | true =>
          rw [hg] at hadd
          simp only [if_true, Option.some.injEq, Prod.mk.injEq] at hadd
          rw [← hadd.1]
      · simp only [Option.some.injEq, Prod.mk.injEq] at hadd
        rw [← hadd.1]
    · unfold SocketSet.add at hadd
      rcases hfe : findFirstEmpty set.sockets with _ | i <;> rw [hfe] at hadd
      · cases hg : set.growable with
        | false => rw [hg] at hadd; simp at hadd
        | true =>
          rw [hg] at hadd
          simp only [if_true, Option.some.injEq, Prod.mk.injEq] at hadd
          intro j hj
          rw [← hadd.2] at hj
          intro hjn
          exact (findFirstEmpty_none_iff _ |>.mp hfe)
            none (List.getElem?_mem hjn) rfl
      · simp only [Option.some.injEq, Prod.mk.injEq] at hadd
        rw [← hadd.2]
        exact (findFirstEmpty_some hfe).2
    · unfold SocketSet.add at hadd
      rcases hfe : findFirstEmpty set.sockets with _ | i <;> rw [hfe] at hadd
      · cases hg : set.growable with
        | false => rw [hg] at hadd; simp at hadd
        | true =>
          rw [hg] at hadd
          simp only [if_true, Option.some.injEq, Prod.mk.injEq] at hadd
          exact Or.inr ⟨hadd.2.symm, rfl⟩
      · simp only [Option.some.injEq, Prod.mk.injEq] at hadd
        rw [← hadd.2]
        exact Or.inl (findFirstEmpty_some hfe).1

/-- Witness for C7: adding to a one-slot empty borrowed set under
`QUEUE_COUNT = 2`. -/
theorem socketSet_add_spec_witness :
    ((SocketSet.mk ([none] : List (Option (Item Nat))) 3 false).add 2 42 =
        none ↔
      (false : Bool) = false ∧
        ∀ s ∈ ([none] : List (Option (Item Nat))), s ≠ none) ∧
    ∀ set' index,
      (SocketSet.mk ([none] : List (Option (Item Nat))) 3 false).add 2 42 =
        some (set', index) →
      set'.sockets[index]? = some (some ⟨index, 3 % 2, 42⟩) ∧
      3 % 2 < 2 ∧
      set'.counter = 3 + 1 ∧
      (∀ j < index, ([none] : List (Option (Item Nat)))[j]? ≠ some none) ∧
      (([none] : List (Option (Item Nat)))[index]? = some none ∨
        (index = ([none] : List (Option (Item Nat))).length ∧
          (false : Bool) = true)) :=
  socketSet_add_spec 2 (SocketSet.mk [none] 3 false) 42 (by decide)

/-- C8: after `h = add(s)`, as long as only further `add`s happen (an
`add` never reuses an occupied slot), `remove(h)` returns exactly the
upcast socket stored by the `add` and leaves slot `h` empty. -/
theorem socketSet_remove_after_add {σ : Type} (Q : Nat)
    (set0 set1 set2 : SocketSet σ) (socket : σ) (index : Nat)
    (hadd : set0.add Q socket = some (set1, index))
    (hreach : Relation.ReflTransGen (AddStep Q) set1 set2) :
    set2.remove index =
      some (socket,
        { set2 with sockets := set2.sockets.set index none }) ∧
    (set2.sockets.set index none)[index]? = some none := by
  have hslot : set2.sockets[index]? =
      some (some ⟨index, set0.counter % Q, socket⟩) :=
    reach_preserves (SocketSet.add_slot hadd) hreach
  have hlt : index < set2.sockets.length :=
    (List.getElem?_eq_some.mp hslot).1
  constructor
  · unfold SocketSet.remove
    rw [hslot]
  · exact List.getElem?_set_eq_of_lt _ hlt

/-- Witness for C8: add to an empty growable set, remove immediately. -/
theorem socketSet_remove_after_add_witness :
    (SocketSet.mk ([some ⟨0, 1 % 1, 5⟩] : List (Option (Item Nat))) 2
        true).remove 0 =
      some (5, ⟨[none], 2, true⟩) ∧
    (([some ⟨0, 1 % 1, 5⟩] : List (Option (Item Nat))).set 0 none)[0]? =
      some none := by
  have h := socketSet_remove_after_add 1 (SocketSet.mk [none] 1 true)
    (SocketSet.mk [some ⟨0, 1 % 1, 5⟩] 2 true)
    (SocketSet.mk [some ⟨0, 1 % 1, 5⟩] 2 true) 5 0 rfl .refl
  simpa using h

end Smoltcp
